import Mathlib

/-!
Shallow embedding of `src/src/main.rs` of the repository
`async-from-sync-test`: a tokio demo with a periodic task `loopy`,
three bridge strategies `spawn_tokio_task_a` / `_b` / `_c`, a `Case`
selector, and an orchestrating `main`.

Timing is modelled logically: every operation other than a sleep takes
zero time, and a sleep advances the clock by its duration in
milliseconds.
-/

namespace AsyncFromSync

/-- Kinds of threads that occur in the program: the `#[tokio::main]`
thread, other tokio worker threads, and the thread created by
`thread::spawn` on line 52, which tokio does not manage. -/
inductive ThreadKind
  | tokioMain
  | tokioWorker
  | userSpawned
  deriving DecidableEq, Repr

/-- Whether tokio manages the thread.  Only the thread created by
`thread::spawn` (line 52) is outside the runtime. -/
def ThreadKind.managedByTokio : ThreadKind → Bool
  | .tokioMain => true
  | .tokioWorker => true
  | .userSpawned => false

/-- Observable events of one `loopy` task (lines 5-12): an `eprintln!`
of the name and counter value, and a `tokio::time::sleep` of a duration
in milliseconds. -/
inductive LoopyEvent
  | emit (name : String) (value : Nat)
  | sleepMs (ms : Nat)
  deriving DecidableEq, Repr

/-- The stderr line produced by the `eprintln!` on line 9 for a given
name and counter value: the format string is `{name} = {i}`. -/
def renderEmit (name : String) (value : Nat) : String :=
  name ++ " = " ++ toString value

/-- One iteration of the loop body of `loopy` (lines 7-11): increment
the counter, print `name = i` to stderr, sleep one second (1000 ms).
Returns the new counter value and the events of the iteration, in
order. -/
def loopyIter (name : String) (i : Nat) : Nat × List LoopyEvent :=
  let i := i + 1
  (i, [LoopyEvent.emit name i, LoopyEvent.sleepMs 1000])

/-- Counter value and accumulated event trace of `loopy name` after `n`
iterations; the counter starts at 0 (line 6). -/
def loopyRun (name : String) : Nat → Nat × List LoopyEvent
  | 0 => (0, [])
  | n + 1 =>
    let s := loopyRun name n
    let s2 := loopyIter name s.1
    (s2.1, s.2 ++ s2.2)

/-- Control state of `loopy`: still looping with a counter value,
returned normally, or failed with an error.  The loop on lines 7-11 has
no `break` and no `return`, and its body contains no fallible
operation, so stepping from `running` always yields `running`. -/
inductive LoopyOutcome
  | running (i : Nat)
  | returned
  | failed (msg : String)
  deriving DecidableEq, Repr

/-- Control state of `loopy` after `n` iterations.  Each step is one
pass through the loop body (lines 7-11), which always loops again. -/
def loopyAfter (name : String) : Nat → LoopyOutcome
  | 0 => .running 0
  | n + 1 =>
    match loopyAfter name n with
    | .running i => .running (loopyIter name i).1
    | .returned => .returned
    | .failed msg => .failed msg

/-- The computation `loopy name` terminates normally after some number
of iterations. -/
def loopyTerminatesFor (name : String) : Prop :=
  ∃ n, loopyAfter name n = .returned

/-- The counter values printed by `loopy name` within its first `n`
iterations, in emission order. -/
def emittedValues (name : String) (n : Nat) : List Nat :=
  (loopyRun name n).2.filterMap fun e =>
    match e with
    | .emit _ v => some v
    | .sleepMs _ => none

/-- Attach a logical start time (in ms) to every event of a trace:
emissions are instantaneous, sleeps advance the clock by their
duration. -/
def timedTrace (t : Nat) : List LoopyEvent → List (Nat × LoopyEvent)
  | [] => []
  | e :: es =>
    (t, e) ::
      timedTrace
        (t + match e with
             | .sleepMs ms => ms
             | .emit _ _ => 0)
        es

/-- Total sleeping time of a trace, in milliseconds. -/
def totalSleep : List LoopyEvent → Nat
  | [] => 0
  | .sleepMs ms :: es => ms + totalSleep es
  | .emit _ _ :: es => totalSleep es

/-- Logical times (ms after the task started) of the emissions among
the first `n` iterations of `loopy name`. -/
def emitTimes (name : String) (n : Nat) : List Nat :=
  (timedTrace 0 (loopyRun name n).2).filterMap fun te =>
    match te.2 with
    | .emit _ _ => some te.1
    | .sleepMs _ => none

-- Basic lemmas about the loopy machinery.

theorem loopyRun_fst (name : String) : ∀ n, (loopyRun name n).1 = n := by
  intro n
  induction n with
  | zero => rfl
  | succ n ih => simp [loopyRun, loopyIter, ih]

theorem loopyRun_succ_snd (name : String) (n : Nat) :
    (loopyRun name (n + 1)).2 =
      (loopyRun name n).2 ++
        [LoopyEvent.emit name (n + 1), LoopyEvent.sleepMs 1000] := by
  simp [loopyRun, loopyIter, loopyRun_fst]

theorem loopyAfter_eq_running (name : String) :
    ∀ n, loopyAfter name n = .running n := by
  intro n
  induction n with
  | zero => rfl
  | succ n ih => simp [loopyAfter, ih, loopyIter]

theorem emittedValues_succ (name : String) (n : Nat) :
    emittedValues name (n + 1) = emittedValues name n ++ [n + 1] := by
  simp [emittedValues, loopyRun_succ_snd]

theorem emittedValues_eq_range (name : String) :
    ∀ n, emittedValues name n = (List.range n).map (· + 1) := by
  intro n
  induction n with
  | zero => rfl
  | succ n ih =>
      rw [emittedValues_succ, ih, List.range_succ]
      simp

theorem timedTrace_append (xs : List LoopyEvent) :
    ∀ (t : Nat) (ys : List LoopyEvent),
      timedTrace t (xs ++ ys) =
        timedTrace t xs ++ timedTrace (t + totalSleep xs) ys := by
  induction xs with
  | nil => intro t ys; simp [timedTrace, totalSleep]
  | cons e es ih =>
      intro t ys
      cases e with
      | emit name v => simp [timedTrace, totalSleep, ih]
      | sleepMs ms =>
          simp [timedTrace, totalSleep, ih]
          ring_nf

theorem totalSleep_append (xs ys : List LoopyEvent) :
    totalSleep (xs ++ ys) = totalSleep xs + totalSleep ys := by
  induction xs with
  | nil => simp [totalSleep]
  | cons e es ih => cases e <;> simp [totalSleep, ih, Nat.add_assoc]

theorem totalSleep_loopyRun (name : String) :
    ∀ n, totalSleep (loopyRun name n).2 = n * 1000 := by
  intro n
  induction n with
  | zero => rfl
  | succ n ih =>
      rw [loopyRun_succ_snd, totalSleep_append, ih]
      simp [totalSleep]
      ring

theorem emitTimes_eq (name : String) :
    ∀ n, emitTimes name n = (List.range n).map (· * 1000) := by
  intro n
  induction n with
  | zero => rfl
  | succ n ih =>
      unfold emitTimes
      rw [loopyRun_succ_snd, timedTrace_append, totalSleep_loopyRun]
      rw [List.filterMap_append]
      have h0 : (timedTrace (0 + n * 1000)
          [LoopyEvent.emit name (n + 1), LoopyEvent.sleepMs 1000]).filterMap
            (fun te =>
              match te.2 with
              | .emit _ _ => some te.1
              | .sleepMs _ => none) = [n * 1000] := by
        simp [timedTrace]
      rw [h0]
      have : emitTimes name n = (List.range n).map (· * 1000) := ih
      unfold emitTimes at this
      rw [this, List.range_succ]
      simp

/-! Bridge strategies (lines 14-53).  Each strategy is embedded as the
list of scheduling events its body performs, in program order, together
with the condition under which control returns to its caller. -/

/-- Scheduling events performed by the bridge strategies and the
orchestrator. -/
inductive Event
  | acquireHandle (t : ThreadKind)
  | blockInPlace (t : ThreadKind)
  | blockOnStart (t : ThreadKind) (taskName : String)
  | threadSpawn (parent child : ThreadKind)
  deriving DecidableEq, Repr

/-- Outcome of calling tokio's `Handle::current`.  Its documented
contract, restated in the doc comment on lines 44-46 of the source, is
that it panics when called from a thread the runtime does not
manage. -/
inductive HandleAcq
  | ok
  | panicked
  deriving DecidableEq, Repr

/-- Result of `Handle::current()` on a thread of the given kind:
succeeds on runtime-managed threads, fails fatally elsewhere. -/
def handleCurrent (t : ThreadKind) : HandleAcq :=
  if t.managedByTokio then .ok else .panicked

/-- Events of `spawn_tokio_task_a` (lines 23-26) when called from a
thread of kind `caller`: acquire a handle on the calling thread, then
`handle.block_on(loopy("A"))` on that same thread. -/
def spawn_tokio_task_a_events (caller : ThreadKind) : List Event :=
  [Event.acquireHandle caller, Event.blockOnStart caller "A"]

/-- Events of `spawn_tokio_task_b` (lines 37-40): acquire a handle on
the calling thread, enter `block_in_place`, then
`handle.block_on(loopy("B"))` on that same thread. -/
def spawn_tokio_task_b_events (caller : ThreadKind) : List Event :=
  [Event.acquireHandle caller, Event.blockInPlace caller,
   Event.blockOnStart caller "B"]

/-- Events of `spawn_tokio_task_c` (lines 50-53): acquire a handle on
the calling thread, then `thread::spawn` a new thread not managed by
tokio, and `handle.block_on(loopy("C"))` runs on that new thread. -/
def spawn_tokio_task_c_events (caller : ThreadKind) : List Event :=
  [Event.acquireHandle caller,
   Event.threadSpawn caller .userSpawned,
   Event.blockOnStart .userSpawned "C"]

/-- Control returns from `spawn_tokio_task_a` to its caller exactly
when the `handle.block_on(loopy("A"))` on line 25, its final
expression, finishes, i.e. when `loopy "A"` terminates. -/
def spawn_tokio_task_a_returns : Prop := loopyTerminatesFor "A"

/-- Control returns from `spawn_tokio_task_b` to its caller exactly
when the `handle.block_on(loopy("B"))` on line 39 finishes, i.e. when
`loopy "B"` terminates. -/
def spawn_tokio_task_b_returns : Prop := loopyTerminatesFor "B"

/-- Control returns from `spawn_tokio_task_c` to its caller as soon as
`thread::spawn` on line 52 has created the new thread: the returned
join handle is dropped, never joined, so the call returns
unconditionally. -/
def spawn_tokio_task_c_returns : Prop := True

/-! The orchestrator (lines 55-89). -/

/-- The selector enumeration `Case` (lines 55-59). -/
inductive Case
  | A
  | B
  | C
  deriving DecidableEq, Repr

/-- The selector parse of lines 63-70: the first positional argument is
matched against the literals `a`, `b`, `c`; anything else yields
`None`. -/
def parseCase (s : String) : Option Case :=
  match s with
  | "a" => some Case.A
  | "b" => some Case.B
  | "c" => some Case.C
  | _ => none

/-- `args().nth(1).and_then(...)` of line 63: a missing first argument
also yields `None`. -/
def readCase (arg : Option String) : Option Case :=
  arg.bind parseCase

/-- The usage line printed on line 74. -/
def usageMessage : String := "Usage: ./run.sh case"

/-- The name given to the baseline task on line 79. -/
def baselineTaskName : String := "main"

/-- Delay of the orchestrator before dispatching a strategy, from
`Duration::from_millis(3100)` on line 80. -/
def orchestratorDelayMs : Nat := 3100

/-- Strategy dispatch of lines 82-86: the events of the strategy chosen
by the selector, called from the given thread. -/
def dispatchEvents (c : Case) (caller : ThreadKind) : List Event :=
  match c with
  | .A => spawn_tokio_task_a_events caller
  | .B => spawn_tokio_task_b_events caller
  | .C => spawn_tokio_task_c_events caller

/-- Whether the strategy dispatched on lines 82-86 returns control to
`main`. -/
def dispatchReturns (c : Case) : Prop :=
  match c with
  | .A => spawn_tokio_task_a_returns
  | .B => spawn_tokio_task_b_returns
  | .C => spawn_tokio_task_c_returns

/-- Line 88 (`main_task.await.expect(..)`) executes exactly when the
dispatch of lines 82-86 has returned control to `main`. -/
def reachesFinalAwait (c : Case) : Prop := dispatchReturns c

/-- The name of the task a strategy drives with `block_on`: the task
name of the first `blockOnStart` event in its trace. -/
def strategyTaskName (c : Case) : Option String :=
  (dispatchEvents c .tokioMain).findSome? fun e =>
    match e with
    | .blockOnStart _ n => some n
    | _ => none

/-- Names ever passed to `loopy`: `"main"` on line 79 and the task name
of each strategy (lines 25, 39, 52). -/
def allLoopyNames : List String :=
  baselineTaskName ::
    ([Case.A, Case.B, Case.C].filterMap strategyTaskName)

/-- What `main` (lines 62-89) does before any task produces output,
as a function of the first command-line argument. -/
structure MainRun where
  printed : List String
  spawnsBaseline : Bool
  dispatched : Option Case
  deriving DecidableEq, Repr

/-- Behaviour of `main` on the given first argument: an unparsable or
missing selector prints the usage line and returns (lines 71-77); a
valid one spawns the baseline task, sleeps, and dispatches the matching
strategy (lines 79-88). -/
def mainRun (arg : Option String) : MainRun :=
  match readCase arg with
  | none => ⟨[usageMessage], false, none⟩
  | some c => ⟨[], true, some c⟩

/-- Whether `main` terminates by returning normally: on the usage path
it returns at line 75; otherwise it must get past the dispatch of lines
82-86 and then past `main_task.await` on line 88, which finishes only
if `loopy "main"` terminates. -/
def mainExitsNormally (arg : Option String) : Prop :=
  match readCase arg with
  | none => True
  | some c => dispatchReturns c ∧ loopyTerminatesFor baselineTaskName

/-- Result of awaiting the baseline task's join handle on line 88:
either the task ran to completion or it failed (panicked or was
cancelled), carrying a description of the failure. -/
inductive JoinResult
  | ok
  | err (e : String)
  deriving DecidableEq, Repr

/-- Outcome of the `.expect("Failed running main task")` on line 88. -/
inductive AwaitOutcome
  | returnsUnit
  | panics (msg : String)
  deriving DecidableEq, Repr

/-- The `main_task.await.expect("Failed running main task")` of line
88: on a failed join it panics with the expect message followed by the
join error's description, as `Result::expect` does. -/
def expectMainTask (r : JoinResult) : AwaitOutcome :=
  match r with
  | .ok => .returnsUnit
  | .err e => .panics ("Failed running main task: " ++ e)

/-- Number of counter increments the baseline task `loopy "main"` has
logged strictly before the orchestrator's 3.1 s delay (line 80)
expires, i.e. before any strategy is dispatched, among its first `n`
iterations. -/
def baselineEmitsBeforeDispatch (n : Nat) : Nat :=
  ((emitTimes baselineTaskName n).filter
      fun t => decide (t < orchestratorDelayMs)).length

/-- Holds when every handle acquisition in a trace happens on a thread
tokio manages. -/
def acquiresOnlyOnManaged (evs : List Event) : Bool :=
  evs.all fun e =>
    match e with
    | .acquireHandle t => t.managedByTokio
    | _ => true

/-- Holds when no handle acquisition in a trace happens on the given
thread kind. -/
def noAcquireOn (t : ThreadKind) (evs : List Event) : Bool :=
  evs.all fun e =>
    match e with
    | .acquireHandle t2 => !(t2 == t)
    | _ => true

/-- Holds when every `block_on` in a trace starts on the user-spawned
thread. -/
def blocksOnlyOnSpawned (evs : List Event) : Bool :=
  evs.all fun e =>
    match e with
    | .blockOnStart t _ => t == ThreadKind.userSpawned
    | _ => true

/-- Every `loopy` task never terminates: its control state after any
number of iterations is still `running`. -/
theorem loopyTerminatesFor_false (name : String) :
    ¬ loopyTerminatesFor name := by
  rintro ⟨n, h⟩
  rw [loopyAfter_eq_running] at h
  exact LoopyOutcome.noConfusion h

/-! Claim theorems. -/

/-- Claim C2, counterexample: with a 1-second period and a 3.1-second
orchestrator delay, the baseline task has logged 4 increments (at 0 s,
1 s, 2 s and 3 s — the first print precedes the first sleep), not
exactly 3, before any strategy is dispatched; shown here on its first
5 iterations. -/
theorem claim_C2_counterexample :
    ¬ baselineEmitsBeforeDispatch 5 = 3 := by decide

/-- Claim C2, amended: with a 1-second period in the periodic task and
a 3.1-second orchestrator delay, the baseline task has logged exactly 4
counter increments before any bridge strategy is invoked, because the
task prints once immediately on start and then once per elapsed second
(at 0 ms, 1000 ms, 2000 ms and 3000 ms, all below 3100 ms). -/
theorem claim_C2 (n : Nat) (h : 4 ≤ n) :
    baselineEmitsBeforeDispatch n = 4 := by
  induction n, h using Nat.le_induction with
  | base => decide
  | succ n hn ih =>
      have he : emitTimes baselineTaskName (n + 1)
          = emitTimes baselineTaskName n ++ [n * 1000] := by
        rw [emitTimes_eq, emitTimes_eq, List.range_succ]
        simp
      unfold baselineEmitsBeforeDispatch at ih ⊢
      rw [he, List.filter_append, List.length_append, ih]
      have hz : (List.filter (fun t => decide (t < orchestratorDelayMs))
          [n * 1000]).length = 0 := by
        simp [orchestratorDelayMs]
        omega
      omega

/-- Claim C2, witness of the amended statement at `n = 6`. -/
theorem claim_C2_witness : baselineEmitsBeforeDispatch 6 = 4 :=
  claim_C2 6 (by decide)

/-- Claim C3: for every name passed to the periodic-task function, the
sequence of counter values it emits is strictly increasing (hence has
no repeats or decreases) and starts at 1. -/
theorem claim_C3 (name : String) (n : Nat) :
    (emittedValues name n).Pairwise (· < ·) ∧
      (0 < n → (emittedValues name n).head? = some 1) := by
  constructor
  · rw [emittedValues_eq_range]
    exact (List.pairwise_lt_range n).map _ (fun _ _ h => by omega)
  · intro hn
    obtain ⟨m, rfl⟩ : ∃ m, n = m + 1 := ⟨n - 1, by omega⟩
    rw [emittedValues_eq_range, List.range_succ_eq_map]
    simp

/-- Claim C3, witness at `name = "main"`, `n = 3`. -/
theorem claim_C3_witness :
    (emittedValues "main" 3).Pairwise (· < ·) ∧
      (emittedValues "main" 3).head? = some 1 :=
  ⟨(claim_C3 "main" 3).1, (claim_C3 "main" 3).2 (by decide)⟩

/-- Claim C4: when the first command-line argument is missing or is not
one of `a`, `b`, `c`, `main` prints only the usage message, spawns no
task, dispatches no strategy, and returns normally. -/
theorem claim_C4 (arg : Option String)
    (h : ∀ s, arg = some s → s ≠ "a" ∧ s ≠ "b" ∧ s ≠ "c") :
    mainRun arg = ⟨[usageMessage], false, none⟩ ∧ mainExitsNormally arg := by
  cases arg with
  | none =>
      exact ⟨rfl, by simp [mainExitsNormally, readCase]⟩
  | some s =>
      obtain ⟨ha, hb, hc⟩ := h s rfl
      have hp : parseCase s = none := by
        unfold parseCase
        split <;> simp_all
      constructor
      · simp [mainRun, readCase, hp]
      · simp [mainExitsNormally, readCase, hp]

/-- Claim C4, witness at the unrecognized argument `"x"`. -/
theorem claim_C4_witness :
    mainRun (some "x") = ⟨[usageMessage], false, none⟩ ∧
      mainExitsNormally (some "x") :=
  claim_C4 (some "x")
    (by
      intro s hs
      cases hs
      exact ⟨by decide, by decide, by decide⟩)

/-- Claim C5: the selector has exactly the three variants `A`, `B`,
`C`; the arguments `a`, `b`, `c` parse to them one-to-one; each variant
dispatches a distinct strategy body, and the strategies drive the
distinctly labeled tasks `A`, `B`, `C` respectively. -/
theorem claim_C5 :
    (∀ x : Case, x = Case.A ∨ x = Case.B ∨ x = Case.C) ∧
    (Case.A ≠ Case.B ∧ Case.A ≠ Case.C ∧ Case.B ≠ Case.C) ∧
    readCase (some "a") = some Case.A ∧
    readCase (some "b") = some Case.B ∧
    readCase (some "c") = some Case.C ∧
    strategyTaskName Case.A = some "A" ∧
    strategyTaskName Case.B = some "B" ∧
    strategyTaskName Case.C = some "C" ∧
    dispatchEvents Case.A ThreadKind.tokioMain ≠
      dispatchEvents Case.B ThreadKind.tokioMain ∧
    dispatchEvents Case.A ThreadKind.tokioMain ≠
      dispatchEvents Case.C ThreadKind.tokioMain ∧
    dispatchEvents Case.B ThreadKind.tokioMain ≠
      dispatchEvents Case.C ThreadKind.tokioMain := by
  refine ⟨fun x => by cases x <;> simp, ?_⟩
  decide

/-- Claim C6: each iteration of `loopy`, given a name, increments the
counter, emits the stderr line `name = counter`, then sleeps exactly
1000 ms, in that order; the names passed to `loopy` in the program are
exactly `main`, `A`, `B`, `C`; and the loop repeats without bound. -/
theorem claim_C6 (name : String) (_hname : name ∈ allLoopyNames)
    (i n : Nat) :
    loopyIter name i =
      (i + 1, [LoopyEvent.emit name (i + 1), LoopyEvent.sleepMs 1000]) ∧
    renderEmit name (i + 1) = name ++ " = " ++ toString (i + 1) ∧
    allLoopyNames = ["main", "A", "B", "C"] ∧
    loopyAfter name n = LoopyOutcome.running n :=
  ⟨rfl, rfl, rfl, loopyAfter_eq_running name n⟩

/-- Claim C6, witness at `name = "A"`, `i = 0`, `n = 2`. -/
theorem claim_C6_witness :
    loopyIter "A" 0 =
      (1, [LoopyEvent.emit "A" 1, LoopyEvent.sleepMs 1000]) ∧
    renderEmit "A" 1 = "A" ++ " = " ++ toString 1 ∧
    allLoopyNames = ["main", "A", "B", "C"] ∧
    loopyAfter "A" 2 = LoopyOutcome.running 2 :=
  claim_C6 "A" (by decide) 0 2

/-- Claim C7: for every name, `loopy` never returns normally and never
fails: after any number of iterations it is still running. -/
theorem claim_C7 (name : String) (n : Nat) :
    ¬ loopyTerminatesFor name ∧
    loopyAfter name n ≠ LoopyOutcome.returned ∧
    ∀ msg, loopyAfter name n ≠ LoopyOutcome.failed msg := by
  refine ⟨loopyTerminatesFor_false name, ?_, ?_⟩
  · rw [loopyAfter_eq_running]
    exact fun h => LoopyOutcome.noConfusion h
  · intro msg
    rw [loopyAfter_eq_running]
    exact fun h => LoopyOutcome.noConfusion h

/-- Claim C8: if the awaited baseline task terminates abnormally, the
`.expect` on line 88 turns the failure into a fatal panic whose message
starts with the descriptive text `Failed running main task`, rather
than returning (continuing or exiting silently). -/
theorem claim_C8 (e : String) :
    expectMainTask (JoinResult.err e) =
      AwaitOutcome.panics ("Failed running main task: " ++ e) ∧
    expectMainTask (JoinResult.err e) ≠ AwaitOutcome.returnsUnit :=
  ⟨rfl, fun h => AwaitOutcome.noConfusion h⟩

/-- Claim C9: in Strategy C the handle is acquired on the calling,
tokio-managed thread strictly before `thread::spawn`, never on the
user-spawned thread; the `block_on` happens only on the user-spawned
thread; and acquiring a handle from a thread tokio does not manage
fails fatally while the calling thread's acquisition succeeds. -/
theorem claim_C9 :
    spawn_tokio_task_c_events ThreadKind.tokioMain =
      [Event.acquireHandle ThreadKind.tokioMain,
       Event.threadSpawn ThreadKind.tokioMain ThreadKind.userSpawned,
       Event.blockOnStart ThreadKind.userSpawned "C"] ∧
    (spawn_tokio_task_c_events ThreadKind.tokioMain).indexOf
        (Event.acquireHandle ThreadKind.tokioMain) <
      (spawn_tokio_task_c_events ThreadKind.tokioMain).indexOf
        (Event.threadSpawn ThreadKind.tokioMain ThreadKind.userSpawned) ∧
    acquiresOnlyOnManaged
      (spawn_tokio_task_c_events ThreadKind.tokioMain) = true ∧
    noAcquireOn ThreadKind.userSpawned
      (spawn_tokio_task_c_events ThreadKind.tokioMain) = true ∧
    blocksOnlyOnSpawned
      (spawn_tokio_task_c_events ThreadKind.tokioMain) = true ∧
    handleCurrent ThreadKind.tokioMain = HandleAcq.ok ∧
    handleCurrent ThreadKind.userSpawned = HandleAcq.panicked := by
  decide

/-- Claim C10: strategies A and B block on `loopy` tasks that never
complete, so they never return control and the final await of the
baseline task is unreachable under selectors `a` and `b`; strategy C
returns unconditionally after spawning its thread, so line 88 is
reached exactly under selector `c`. -/
theorem claim_C10 :
    ¬ reachesFinalAwait Case.A ∧
    ¬ reachesFinalAwait Case.B ∧
    reachesFinalAwait Case.C ∧
    ¬ loopyTerminatesFor "A" ∧
    ¬ loopyTerminatesFor "B" ∧
    ∀ c : Case, reachesFinalAwait c ↔ c = Case.C := by
  have hA := loopyTerminatesFor_false "A"
  have hB := loopyTerminatesFor_false "B"
  refine ⟨hA, hB, True.intro, hA, hB, ?_⟩
  intro c
  cases c with
  | A => exact ⟨fun h => absurd h hA, fun h => Case.noConfusion h⟩
  | B => exact ⟨fun h => absurd h hB, fun h => Case.noConfusion h⟩
  | C => exact ⟨fun _ => rfl, fun _ => True.intro⟩

end AsyncFromSync
